import Mathlib

/-!
Shallow embedding of the `elastic-logging` repository (TypeScript), centred on
the `Logger` class of `src/unnamed/part_000` (the batching/flush engine and
index-lifecycle manager) and, where a claim cites it, the older `Logging`
class of `src/unnamed/part_001` / `src/index.ts`.

Modelling conventions:
* `Map<string, T>` is an association list `List (String × T)` with JavaScript
  `Map` semantics: `set` replaces in place or appends, `delete` removes,
  iteration order is insertion order.
* `Set<string>` is a duplicate-free `List String` in insertion order.
* Log messages are carried as their `JSON.stringify` serialisations (opaque
  strings); timestamps (`Date.now()`) are explicit `Nat` parameters.
* Asynchronous behaviour (promises, timers) is modelled by splitting each
  method into its synchronous state transition plus explicit continuation
  functions, and, where a claim is temporal, by a small step machine over
  event lists.
-/

namespace ElasticLogging

/-- Association-list lookup, modelling JavaScript `Map.get`. -/
def aGet {β : Type} (m : List (String × β)) (k : String) : Option β :=
  match m with
  | [] => none
  | (k1, v) :: rest => if k1 = k then some v else aGet rest k

/-- Association-list update, modelling JavaScript `Map.set`: replaces the
binding in place when the key is present, otherwise appends it. -/
def aSet {β : Type} (m : List (String × β)) (k : String) (v : β) : List (String × β) :=
  match m with
  | [] => [(k, v)]
  | (k1, v1) :: rest => if k1 = k then (k, v) :: rest else (k1, v1) :: aSet rest k v

/-- Association-list removal, modelling JavaScript `Map.delete`. -/
def aDel {β : Type} (m : List (String × β)) (k : String) : List (String × β) :=
  m.filter (fun p => p.1 ≠ k)

/-- Set insertion, modelling JavaScript `Set.add` (no-op when present,
append otherwise). -/
def addElem (s : List String) (x : String) : List String :=
  if x ∈ s then s else s ++ [x]

/-- Per-destination buffer, translating interface `ESBulk` of
`src/unnamed/part_000` (fields `bulk`, `bulkSize`, `obsolete`). -/
structure ESBulk where
  bulk : String
  bulkSize : Nat
  obsolete : Nat
  deriving Repr, DecidableEq

/-- Cached server version, translating interface `ESVersion` of
`src/unnamed/part_000`. -/
structure ESVersion where
  major : Nat
  minor : Nat
  patch : Nat
  deriving Repr, DecidableEq

/-- Value of a JavaScript timer-id field: `undefined` before any assignment,
`null` only if explicitly assigned, or a live timer id.  The distinction
between `undef` and `null` matters for `Logger.autoFlush`, whose guard
compares with `=== null`. -/
inductive TIDVal where
  | undef : TIDVal
  | null : TIDVal
  | timer : Nat → TIDVal
  deriving Repr, DecidableEq

/-- Mutable state of a `Logger` instance (class fields of
`src/unnamed/part_000`, lines 89-103).  `intervalTimers` records the periods
of the `setInterval` timers that have actually been installed, so that the
effect (or non-effect) of `autoFlush` on the timer set is observable. -/
structure LoggerState where
  indexSplitInterval : Nat
  flushInterval : Nat
  dying : Bool
  esVersion : Option ESVersion
  autoFlushTID : TIDVal
  cleanUpTID : TIDVal
  indexBulks : List (String × ESBulk)
  nonEmptyBulks : List String
  pendingMessages : Nat
  createIndexPromises : List (String × Nat)
  intervalTimers : List Nat
  deriving Repr, DecidableEq

/-- Bulk-action header prepended to each record by `Logger.addToBulk`
(`src/unnamed/part_000`, lines 215-217): for server generation ≥ 7 the header
is `\x7b"index":\x7b"_index":"<index>"\x7d\x7d`, for older generations it also
carries the `_type` tag. -/
def actionHeader (major : Nat) (index : String) (type : String) : String :=
  if major ≥ 7 then
    "\x7b\"index\":\x7b\"_index\":\"" ++ index ++ "\"\x7d\x7d\n"
  else
    "\x7b\"index\":\x7b\"_index\":\"" ++ index ++ "\",\"_type\":\"" ++ type ++ "\"\x7d\x7d\n"

/-- Translation of `Logger.addToBulk` (`src/unnamed/part_000`, lines 213-220)
in the case where the buffer being appended to is the one registered in
`indexBulks` under `index` (which is how `log` reaches it): adds the name to
the pending-set, appends the action header and the serialised message to the
buffer, and increments its record count.  When no buffer is registered under
`index` (the object passed to the JavaScript method has been evicted from the
map), the mutation hits a dead object: the registry is unchanged but the name
is still added to the pending-set. -/
def addToBulk (st : LoggerState) (index : String) (message : String) (type : String) :
    LoggerState :=
  let major := (st.esVersion.map ESVersion.major).getD 0
  match aGet st.indexBulks index with
  | none => { st with nonEmptyBulks := addElem st.nonEmptyBulks index }
  | some b =>
      let b2 : ESBulk :=
        { b with bulk := b.bulk ++ actionHeader major index type ++ message ++ "\n",
                 bulkSize := b.bulkSize + 1 }
      { st with
        nonEmptyBulks := addElem st.nonEmptyBulks index,
        indexBulks := aSet st.indexBulks index b2 }

/-- Body of the `nonEmptyBulks.forEach` loop of `Logger.flush`
(`src/unnamed/part_000`, lines 163-182): look up the buffer registered under
the pending name; when present with a positive record count, issue one bulk
transmission carrying its content and clear it in place. -/
def flushStep (acc : LoggerState × List (String × String)) (index : String) :
    LoggerState × List (String × String) :=
  match aGet acc.1.indexBulks index with
  | none => acc
  | some b =>
      if b.bulkSize > 0 then
        let cleared : ESBulk := { b with bulk := "", bulkSize := 0 }
        ({ acc.1 with indexBulks := aSet acc.1.indexBulks index cleared },
         acc.2 ++ [(index, b.bulk)])
      else acc

/-- Translation of the synchronous part of `Logger.flush`
(`src/unnamed/part_000`, lines 157-186): for each name in the pending-set, in
insertion order, if a buffer is registered under it and its record count is
positive, one bulk transmission carrying the buffer's content is issued and
the buffer is cleared; afterwards the pending-set is emptied.  Returns the new
state and the list of issued transmissions as (destination name, payload)
pairs. -/
def flushRun (st : LoggerState) : LoggerState × List (String × String) :=
  if st.nonEmptyBulks.length = 0 then (st, [])
  else
    let folded := st.nonEmptyBulks.foldl flushStep (st, [])
    ({ folded.1 with nonEmptyBulks := [] }, folded.2)

/-- Little-endian decimal digits of a natural number, as produced by
JavaScript number-to-string conversion for a nonnegative integer (least
significant digit first). -/
def decDigits (n : Nat) : List Nat :=
  if n < 10 then [n] else (n % 10) :: decDigits (n / 10)
decreasing_by exact Nat.div_lt_self (by omega) (by omega)

/-- Value of a little-endian digit list. -/
def undigits : List Nat → Nat
  | [] => 0
  | d :: ds => d + 10 * undigits ds

/-- ASCII digit character for a digit value, as printed by JavaScript. -/
def digitChar (d : Nat) : Char := Char.ofNat (48 + d)

/-- Decimal string of a natural number: the model of JavaScript template
interpolation `${n}` for the nonnegative integer results of
`Math.floor(Date.now() / interval)`. -/
def natToDecString (n : Nat) : String :=
  ((decDigits n).reverse.map digitChar).asString

/-- Translation of `Logger.elasticIndexWithSufix` (`src/unnamed/part_000`,
lines 222-224): with bucketing disabled (`indexSplitInterval === 0`) the base
name is returned unmodified; otherwise the suffix
`-${Math.floor(now / indexSplitInterval)}` is appended. -/
def elasticIndexWithSufix (indexSplitInterval now : Nat) (baseIndex : String) : String :=
  if indexSplitInterval = 0 then baseIndex
  else baseIndex ++ "-" ++ natToDecString (now / indexSplitInterval)

/-- Translation of `Logger.cleanUpOldIndexBulks` (`src/unnamed/part_000`,
lines 288-300): when time-bucketing is enabled, re-arm the sweep timer and
delete every registry entry whose `obsolete` time is older than
`now - indexSplitInterval`.  The pending-set is not touched.  The second
component is the list of messages reported through the error channel during
the sweep: the source contains no `handleError` call on this path, so it is
always `[]`.  (With `Nat` timestamps, `now - indexSplitInterval` truncates
at 0, which agrees with the JavaScript comparison `obsolete < mintime` since
`obsolete ≥ 0`.) -/
def cleanUpOldIndexBulks (st : LoggerState) (now : Nat) : LoggerState × List String :=
  if st.indexSplitInterval > 0 then
    let mintime := now - st.indexSplitInterval
    ({ st with cleanUpTID := TIDVal.timer 1,
               indexBulks := st.indexBulks.filter (fun p => ¬ p.2.obsolete < mintime) }, [])
  else (st, [])

/-- An HTTP response as observed by the `httpreq` continuations: status code
and body, plus the (abstract, monotone) instant at which the underlying
promise settles, used to model the settlement order of `Promise.all`. -/
structure HttpResp where
  statusCode : Nat
  body : String
  settleTime : Nat
  deriving Repr, DecidableEq

/-- Substring test `/"errors":true/.exec(r.body)` performed by the bulk
response handler of `Logger.flush` (`src/unnamed/part_000`, line 176). -/
def hasErrorsTrue (body : String) : Bool :=
  decide (("\"errors\":true".toList) <:+: body.toList)

/-- Success predicate of one bulk transmission in `Logger.flush`
(`src/unnamed/part_000`, line 176): the per-transmission promise fulfils iff
the status code is 200 and the body does not contain the `"errors":true`
marker; otherwise it rejects. -/
def bulkRespOk (r : HttpResp) : Bool :=
  r.statusCode == 200 && ! hasErrorsTrue r.body

/-- Settlement of the promise returned by `Logger.flush`
(`src/unnamed/part_000`, line 184): the flush promise is
`Promise.all(all).then(() => Promise.resolve())` with no rejection handler
anywhere in `flush`, so it fulfils (after the last transmission, i.e. at the
maximum settle time) iff every transmission fulfils, and rejects at the
moment the first failing transmission settles otherwise.  The third component
is the list of messages passed to `handleError` during the round: `flush`
contains no `handleError` call and no `catch`, so it is `[]` in both cases.
Returns (fulfilled?, settle time, error-channel reports). -/
def flushRoundOutcome (rs : List HttpResp) : Bool × Nat × List String :=
  if rs.all bulkRespOk then
    (true, (rs.map HttpResp.settleTime).foldl max 0, [])
  else
    (false, (((rs.filter (fun r => ! bulkRespOk r)).map HttpResp.settleTime).min?).getD 0, [])

/-- One complete flush round of `Logger.flush` (`src/unnamed/part_000`, lines
157-186): the synchronous drain (buffers cleared, transmissions issued, the
pending-set emptied) followed by the settlement of the round's promise given
the transmissions' responses `rs` (one response per issued transmission). -/
def flushRound (st : LoggerState) (rs : List HttpResp) :
    LoggerState × List (String × String) × Bool × Nat × List String :=
  let fr := flushRun st
  (fr.1, fr.2, flushRoundOutcome rs)

/-- Translation of `Logger.autoFlush` (`src/unnamed/part_000`, lines
226-233): the recurring flush timer is installed by `setInterval` only when
`this.autoFlushTID === null`; installing it records the period in
`intervalTimers` and stores the timer id. -/
def autoFlush (st : LoggerState) : LoggerState :=
  if st.autoFlushTID = TIDVal.null then
    { st with autoFlushTID := TIDVal.timer 0,
              intervalTimers := st.intervalTimers ++ [st.flushInterval] }
  else st

/-- Recognised configuration options of the `Config` interface of
`src/unnamed/part_000` (lines 68-84) that affect the modelled state;
`esHost`, `esRequestTimeout_ms` and `logErrors` only parameterise the
external transport and the stderr printing and are omitted. -/
structure Config where
  flushInterval_ms : Option Nat
  indexSplitInterval_sec : Option Nat
  deriving Repr, DecidableEq

/-- Translation of the `Logger` constructor (`src/unnamed/part_000`, lines
105-117) for an object `config`, invoked at time `now`: the defaults are
`flushInterval = 5000` and `indexSplitInterval = 3600000` (ms), a supplied
`indexSplitInterval_sec` is multiplied by 1000, both timer-id fields start
out `undefined`, and the constructor body then calls `autoFlush()` and
`cleanUpOldIndexBulks()`. -/
def initLoggerFields (cfg : Config) : LoggerState :=
  { indexSplitInterval :=
      match cfg.indexSplitInterval_sec with
      | some s => 1000 * s
      | none => 3600000,
    flushInterval := cfg.flushInterval_ms.getD 5000,
    dying := false,
    esVersion := none,
    autoFlushTID := TIDVal.undef,
    cleanUpTID := TIDVal.undef,
    indexBulks := [],
    nonEmptyBulks := [],
    pendingMessages := 0,
    createIndexPromises := [],
    intervalTimers := [] }

/-- Constructor body (`src/unnamed/part_000`, lines 115-116): after the field
initialisation it calls `this.autoFlush()` and `this.cleanUpOldIndexBulks()`. -/
def mkLogger (cfg : Config) (now : Nat) : LoggerState :=
  (cleanUpOldIndexBulks (autoFlush (initLoggerFields cfg)) now).1

/-- What the synchronous part of one `Logger.log` call did. -/
inductive LogAction where
  | droppedDying : LogAction
  | droppedUninitialized : LogAction
  | appended : LogAction
  | provisioningStarted : LogAction
  deriving Repr, DecidableEq

/-- Translation of the synchronous part of `Logger.log`
(`src/unnamed/part_000`, lines 189-211), called at time `now`: when `dying`
it returns at once, reporting nothing; when `esVersion` is not yet cached it
reports `Logger is not initialized` through `handleError` and returns; else
it computes the effective (possibly bucket-suffixed) destination name and
either appends to the registered buffer or — when no buffer is registered —
increments `pendingMessages` and starts the asynchronous `createIndex`
operation (whose promise-map discipline and network behaviour are modelled by
`provCall`/`provSettle` and `createIndexNet`, and whose continuation either
appends the record or reports the failure and decrements the counter).
Returns the new state, what happened, and the messages reported through the
error channel. -/
def logStep (st : LoggerState) (now : Nat) (baseIndex message : String) (type : String) :
    LoggerState × LogAction × List String :=
  if st.dying then (st, LogAction.droppedDying, [])
  else
    match st.esVersion with
    | none => (st, LogAction.droppedUninitialized, ["Logger is not initialized"])
    | some _ =>
        let index := elasticIndexWithSufix st.indexSplitInterval now baseIndex
        match aGet st.indexBulks index with
        | some _ => (addToBulk st index message type, LogAction.appended, [])
        | none =>
            ({ st with pendingMessages := st.pendingMessages + 1 },
             LogAction.provisioningStarted, [])

/-- HTTP method of a call issued by `createIndex`. -/
inductive HttpMethod where
  | get : HttpMethod
  | put : HttpMethod
  deriving Repr, DecidableEq

/-- An HTTP call issued by `createIndex`. -/
structure HttpCall where
  url : String
  method : HttpMethod
  payload : String
  deriving Repr, DecidableEq

/-- Numeric value of an ASCII digit character. -/
def charDigitVal (c : Char) : Nat := c.toNat - 48

/-- Value of the trailing run of decimal digits of a string, modelling
`+/\d+$/.exec(index)![0]` in `Logger.createIndex` (`src/unnamed/part_000`,
line 261); `none` when the string does not end in a digit (in which case the
JavaScript expression throws a TypeError inside the promise chain). -/
def trailingDigitsVal (s : String) : Option Nat :=
  let ds := s.toList.reverse.takeWhile Char.isDigit
  if ds.isEmpty then none else some (undigits (ds.map charDigitVal))

/-- Network behaviour of one fresh `Logger.createIndex` provisioning attempt
(`src/unnamed/part_000`, lines 239-280), given the response `mresp` the
existence check would get and the response `cresp` a create call would get.
With no schema (`properties` undefined) no call is issued and the operation
resolves immediately.  With a schema: `GET <index>/_mapping[/type]` is
issued; status 200 means the index exists and the operation resolves (with
the obsolescence time back-computed from the bucket suffix when bucketing is
enabled); status 404 triggers exactly one `PUT <index>` carrying the schema,
which resolves iff it returns 200 and otherwise rejects; any other status
rejects without a create call.  Returns the issued calls and either the
`obsolete` value handed to `resolveESBulk` or the rejection message (the
source message is `Can't create indice`; it is rendered here without the
apostrophe). -/
def createIndexNet (esHost : String) (major indexSplitInterval now : Nat)
    (index type : String) (props : Option String) (mresp cresp : HttpResp) :
    List HttpCall × Except String Nat :=
  let indexUrl := "http://" ++ esHost ++ "/" ++ index
  let mapUrl := if major ≥ 7 then indexUrl ++ "/_mapping" else indexUrl ++ "/_mapping/" ++ type
  match props with
  | none => ([], Except.ok (now + 2 * indexSplitInterval))
  | some propsJson =>
      let getCall : HttpCall := ⟨mapUrl, HttpMethod.get, ""⟩
      if mresp.statusCode = 200 then
        if indexSplitInterval > 0 then
          match trailingDigitsVal index with
          | some v => ([getCall], Except.ok (v * indexSplitInterval))
          | none => ([getCall], Except.error "TypeError")
        else ([getCall], Except.ok (now + 2 * indexSplitInterval))
      else if mresp.statusCode = 404 then
        let payload :=
          if major ≥ 7 then
            "\x7b\"mappings\":\x7b\"properties\":" ++ propsJson ++ "\x7d\x7d"
          else
            "\x7b\"mappings\":\x7b\"" ++ type ++ "\":\x7b\"properties\":" ++ propsJson
              ++ "\x7d\x7d\x7d"
        let putCall : HttpCall := ⟨indexUrl, HttpMethod.put, payload⟩
        if cresp.statusCode = 200 then
          ([getCall, putCall], Except.ok (now + 2 * indexSplitInterval))
        else ([getCall, putCall], Except.error "Cant create indice")
      else ([getCall], Except.error "Cant create indice")

/-- State effect of `resolveESBulk` inside `Logger.createIndex`
(`src/unnamed/part_000`, lines 245-249): register a fresh empty buffer with
the given obsolescence time under `index`. -/
def resolveESBulkSt (st : LoggerState) (index : String) (obsolete : Nat) : LoggerState :=
  { st with indexBulks := aSet st.indexBulks index ⟨"", 0, obsolete⟩ }

/-- Provisioning-coordination state of `Logger.createIndex`
(`src/unnamed/part_000`, lines 235-286): the `createIndexPromises` map keyed
by destination name (each in-flight operation identified by a fresh id), a
fresh-id counter, and the history of provisioning operations actually
started (each of which issues at most one existence-check round-trip). -/
structure ProvState where
  promises : List (String × Nat)
  nextId : Nat
  started : List (String × Nat)
  deriving Repr, DecidableEq

/-- Synchronous part of a `Logger.createIndex` call (`src/unnamed/part_000`,
lines 236-238 and 281-285): when an operation for `index` is already in
flight, that same pending operation is returned and nothing else happens;
otherwise a fresh operation is started, recorded in the promise map, and
returned. -/
def provCall (ps : ProvState) (index : String) : ProvState × Nat :=
  match aGet ps.promises index with
  | some p => (ps, p)
  | none =>
      ({ promises := aSet ps.promises index ps.nextId,
         nextId := ps.nextId + 1,
         started := ps.started ++ [(index, ps.nextId)] }, ps.nextId)

/-- Settlement continuation of a `Logger.createIndex` operation
(`src/unnamed/part_000`, lines 281-283): on settlement — fulfilment or
rejection alike, thanks to the interposed `.catch(() => Promise.resolve())` —
the in-flight entry for `index` is deleted from the promise map. -/
def provSettle (ps : ProvState) (index : String) : ProvState :=
  { ps with promises := aDel ps.promises index }

/-- Iterated `provCall` on the same name: `n` consecutive calls with no
settlement in between (a burst of concurrent `log` calls racing on a
first-seen destination). -/
def provCalls (ps : ProvState) (index : String) : Nat → ProvState
  | 0 => ps
  | n + 1 => (provCall (provCalls ps index n) index).1

/-- Events of the provisioning coordinator: a `createIndex` call for a name,
or the settlement of the in-flight operation for a name. -/
inductive ProvEv where
  | call : String → ProvEv
  | settle : String → ProvEv
  deriving Repr, DecidableEq

def provStep (ps : ProvState) (e : ProvEv) : ProvState :=
  match e with
  | ProvEv.call i => (provCall ps i).1
  | ProvEv.settle i => provSettle ps i

def provInit : ProvState := ⟨[], 0, []⟩

/-- Provisioning-coordinator state reached from a fresh instance by a
sequence of call/settle events. -/
def provRun (es : List ProvEv) : ProvState := es.foldl provStep provInit

/-- Shutdown-coordination state: the fields of `Logger` that
`close`/`log` interact with (`src/unnamed/part_000`, lines 96-102, 145-154,
189-211), plus observer fields.  `inflight` holds the ids of `log` calls
whose provisioning is outstanding (`pendingMessages` spans exactly those),
`queued` the ids whose continuation ran `addToBulk`, `errored` the ids whose
provisioning failed (continuation ran `handleError` and dropped the record).
`closeReturned`/`finalFlushDone` record that the poll loop of `close`
observed a zero counter and proceeded to the final `flush`. -/
structure CloseState where
  dying : Bool
  timersCleared : Bool
  pendingMessages : Nat
  inflight : List Nat
  queued : List Nat
  errored : List Nat
  closeRequested : Bool
  closeReturned : Bool
  finalFlushDone : Bool
  nextOp : Nat
  deriving Repr, DecidableEq

/-- Interleaving events of the shutdown path: a `log` call that starts
provisioning, the settlement (success or failure) of an in-flight
provisioning, the synchronous prefix of `close()` (set `dying`, clear both
timers), and one observation of the 100 ms poll loop of `close()` (which
lets `close` perform the final flush and return only when the counter is
zero). -/
inductive CloseEv where
  | submit : CloseEv
  | settleOk : Nat → CloseEv
  | settleErr : Nat → CloseEv
  | closeStart : CloseEv
  | closePoll : CloseEv
  deriving Repr, DecidableEq

/-- One interleaving step of the shutdown protocol, following
`src/unnamed/part_000`: `submit` models lines 190 and 196-207 (no-op when
`dying`, else `pendingMessages++` and a new in-flight op); `settleOk` models
lines 200-203 (`addToBulk` then `pendingMessages--`); `settleErr` models
lines 204-207 (`handleError` then `pendingMessages--`); `closeStart` models
lines 146-148; `closePoll` models lines 149-153: the loop body re-polls
until `pendingMessages > 0` fails, and only then `close` runs the final
`flush` and returns. -/
def closeStep (st : CloseState) (e : CloseEv) : CloseState :=
  match e with
  | CloseEv.submit =>
      if st.dying then st
      else
        { st with pendingMessages := st.pendingMessages + 1,
                  inflight := st.inflight ++ [st.nextOp],
                  nextOp := st.nextOp + 1 }
  | CloseEv.settleOk id =>
      if id ∈ st.inflight then
        { st with inflight := st.inflight.erase id,
                  queued := st.queued ++ [id],
                  pendingMessages := st.pendingMessages - 1 }
      else st
  | CloseEv.settleErr id =>
      if id ∈ st.inflight then
        { st with inflight := st.inflight.erase id,
                  errored := st.errored ++ [id],
                  pendingMessages := st.pendingMessages - 1 }
      else st
  | CloseEv.closeStart =>
      if st.closeRequested then st
      else { st with dying := true, timersCleared := true, closeRequested := true }
  | CloseEv.closePoll =>
      if st.closeRequested ∧ ¬ st.closeReturned ∧ st.pendingMessages = 0 then
        { st with finalFlushDone := true, closeReturned := true }
      else st

def closeInit : CloseState :=
  { dying := false, timersCleared := false, pendingMessages := 0, inflight := [],
    queued := [], errored := [], closeRequested := false, closeReturned := false,
    finalFlushDone := false, nextOp := 0 }

/-- Shutdown-protocol state reached from a fresh instance by an event
interleaving. -/
def closeRun (es : List CloseEv) : CloseState := es.foldl closeStep closeInit

/-- Inductive invariant of the shutdown protocol: the pending-operation
counter spans exactly the in-flight operations, the in-flight ids are
distinct and below the id counter, every id ever handed out is in flight or
settled (queued or errored), a requested close has set `dying` and cleared
the timers, and a returned close implies the final flush ran with nothing
left in flight. -/
def closeInv (st : CloseState) : Prop :=
  st.pendingMessages = st.inflight.length ∧
  st.inflight.Nodup ∧
  (∀ id ∈ st.inflight, id < st.nextOp) ∧
  (∀ id, id < st.nextOp → id ∈ st.inflight ∨ id ∈ st.queued ∨ id ∈ st.errored) ∧
  (st.closeRequested = true → st.dying = true ∧ st.timersCleared = true) ∧
  (st.closeReturned = true →
    st.closeRequested = true ∧ st.inflight = [] ∧ st.finalFlushDone = true)

/-- Invariant C3 talks about (spec §3, pending-set): a name is in the
pending-set iff a buffer is registered under it with a positive record
count. -/
def pendingInv (st : LoggerState) : Prop :=
  ∀ name, name ∈ st.nonEmptyBulks ↔ ∃ b, aGet st.indexBulks name = some b ∧ 0 < b.bulkSize

/-!  ## Concrete instances used to instantiate the theorems  -/

/-- A logger (bucketing disabled, generation-7 server) with two pending
destinations holding one record each. -/
def c1State : LoggerState :=
  { initLoggerFields ⟨none, some 0⟩ with
    esVersion := some ⟨7, 0, 0⟩,
    indexBulks := [("a", ⟨"pa", 1, 0⟩), ("b", ⟨"pb", 1, 0⟩)],
    nonEmptyBulks := ["a", "b"] }

/-- Responses to the two transmissions of `c1State`'s flush round: the first
rejects (status 500) at time 1, the second fulfils at time 5. -/
def c1Resps : List HttpResp := [⟨500, "", 1⟩, ⟨200, "ok", 5⟩]

/-- A logger with a 1-second bucket interval and one pending destination
whose buffer holds one record with obsolescence time 100. -/
def c3State : LoggerState :=
  { initLoggerFields ⟨none, some 1⟩ with
    esVersion := some ⟨7, 0, 0⟩,
    indexBulks := [("a-0", ⟨"x", 1, 100⟩)],
    nonEmptyBulks := ["a-0"] }

/-- A logger (bucketing disabled) with one registered destination holding two
records. -/
def c3WState : LoggerState :=
  { initLoggerFields ⟨none, some 0⟩ with
    esVersion := some ⟨7, 0, 0⟩,
    indexBulks := [("w", ⟨"p", 2, 0⟩)],
    nonEmptyBulks := ["w"] }

/-- An initialized logger that is shutting down. -/
def c6DyingState : LoggerState :=
  { initLoggerFields ⟨none, some 0⟩ with dying := true, esVersion := some ⟨7, 0, 0⟩ }

/-- A logger that was never initialized (no cached server version). -/
def c6UninitState : LoggerState := initLoggerFields ⟨none, some 0⟩

/-- An initialized logger (bucketing disabled, generation-7 server) with no
registered destinations. -/
def c7State : LoggerState :=
  { initLoggerFields ⟨none, some 0⟩ with esVersion := some ⟨7, 0, 0⟩ }

/-- Same shape as `c3State`, used to instantiate the retention-sweep
data-loss theorem. -/
def c10State : LoggerState :=
  { initLoggerFields ⟨none, some 1⟩ with
    esVersion := some ⟨7, 0, 0⟩,
    indexBulks := [("a-0", ⟨"x", 1, 100⟩)],
    nonEmptyBulks := ["a-0"] }

/-!  ## Auxiliary lemmas  -/

theorem foldl_preserves {α σ : Type} (step : σ → α → σ) (P : σ → Prop)
    (hstep : ∀ s a, P s → P (step s a)) :
    ∀ (l : List α) (s0 : σ), P s0 → P (l.foldl step s0) := by
  intro l
  induction l with
  | nil => intro s0 h; exact h
  | cons a rest ih => intro s0 h; exact ih (step s0 a) (hstep s0 a h)

theorem aGet_aSet_self {β : Type} (m : List (String × β)) (k : String) (v : β) :
    aGet (aSet m k v) k = some v := by
  induction m with
  | nil => simp [aSet, aGet]
  | cons p rest ih =>
    by_cases h : p.1 = k
    · simp [aSet, h, aGet]
    · simp [aSet, h, aGet, ih]

theorem aGet_aSet_ne {β : Type} (m : List (String × β)) (k k2 : String) (v : β)
    (h : k ≠ k2) : aGet (aSet m k v) k2 = aGet m k2 := by
  induction m with
  | nil => simp [aSet, aGet, h]
  | cons p rest ih =>
    by_cases hp : p.1 = k
    · simp [aSet, hp, aGet, h]
    · simp only [aSet, hp, if_false, aGet]
      by_cases hp2 : p.1 = k2
      · simp [hp2]
      · simp [hp2, ih]

theorem aGet_eq_none_iff {β : Type} (m : List (String × β)) (k : String) :
    aGet m k = none ↔ ∀ v, (k, v) ∉ m := by
  induction m with
  | nil => simp [aGet]
  | cons p rest ih =>
    by_cases h : p.1 = k
    · simp only [aGet, h, if_true]
      constructor
      · intro hc; cases hc
      · intro hall
        exfalso
        refine hall p.2 ?_
        have hpk : p = (k, p.2) := by
          cases p with
          | mk a b => simp_all
        rw [← hpk]
        exact List.mem_cons_self p rest
    · simp only [aGet, h, if_false, ih]
      constructor
      · intro hall v hv
        rcases List.mem_cons.mp hv with hv | hv
        · exact h (by simp [← hv])
        · exact hall v hv
      · intro hall v hv
        exact hall v (List.mem_cons_of_mem p hv)

theorem aGet_filter_eq_none {β : Type} (m : List (String × β)) (k : String)
    (p : String × β → Bool) (h : ∀ v, (k, v) ∈ m → ¬ p (k, v)) :
    aGet (m.filter p) k = none := by
  rw [aGet_eq_none_iff]
  intro v hv
  have hmem := List.mem_of_mem_filter hv
  have hp := List.of_mem_filter hv
  exact h v hmem hp

theorem mem_addElem (s : List String) (x y : String) :
    y ∈ addElem s x ↔ y ∈ s ∨ y = x := by
  by_cases h : x ∈ s
  · simp only [addElem, h, if_true]
    constructor
    · exact Or.inl
    · rintro (hy | rfl)
      · exact hy
      · exact h
  · simp [addElem, h]

theorem foldl_flushStep_none (l : List String) (acc : LoggerState × List (String × String))
    (k : String) (h : aGet acc.1.indexBulks k = none) :
    aGet ((l.foldl flushStep acc).1).indexBulks k = none ∧
    (∀ p ∈ (l.foldl flushStep acc).2, p.1 = k → p ∈ acc.2) := by
  induction l generalizing acc with
  | nil => exact ⟨h, fun p hp _ => hp⟩
  | cons i rest ih =>
    simp only [List.foldl_cons]
    have hstep : aGet (flushStep acc i).1.indexBulks k = none ∧
        (∀ p ∈ (flushStep acc i).2, p.1 = k → p ∈ acc.2) := by
      unfold flushStep
      cases hb : aGet acc.1.indexBulks i with
      | none => exact ⟨h, fun p hp _ => hp⟩
      | some b =>
        by_cases hsz : b.bulkSize > 0
        · have hne : i ≠ k := by
            intro heq; rw [heq] at hb; rw [hb] at h; cases h
          simp only [hsz, if_true]
          refine ⟨by simpa [aGet_aSet_ne _ _ _ _ hne] using h, ?_⟩
          intro p hp hpk
          rcases List.mem_append.mp hp with hp | hp
          · exact hp
          · simp only [List.mem_singleton] at hp
            rw [hp] at hpk
            exact absurd hpk hne
        · simp only [hsz, if_false]
          exact ⟨h, fun p hp _ => hp⟩
    obtain ⟨h1, h2⟩ := ih (flushStep acc i) hstep.1
    exact ⟨h1, fun p hp hpk => hstep.2 p (h2 p hp hpk) hpk⟩

theorem flushRun_fst_nonEmptyBulks (st : LoggerState) :
    (flushRun st).1.nonEmptyBulks = [] := by
  unfold flushRun
  by_cases h : st.nonEmptyBulks.length = 0
  · simpa [h] using List.length_eq_zero.mp h
  · simp [h]

theorem flushRun_of_empty (st : LoggerState) (h : st.nonEmptyBulks = []) :
    flushRun st = (st, []) := by
  simp [flushRun, h]

theorem le_foldl_max (l : List Nat) (a : Nat) :
    a ≤ l.foldl max a ∧ ∀ x ∈ l, x ≤ l.foldl max a := by
  induction l generalizing a with
  | nil => simp
  | cons b t ih =>
    refine ⟨le_trans (le_max_left a b) (ih (max a b)).1, ?_⟩
    intro x hx
    rcases List.mem_cons.mp hx with h | h
    · rw [h]
      exact le_trans (le_max_right a b) (ih (max a b)).1
    · exact (ih (max a b)).2 x h

theorem flushRoundOutcome_spec (rs : List HttpResp) :
    ((flushRoundOutcome rs).1 = true ↔ ∀ r ∈ rs, bulkRespOk r) ∧
    ((flushRoundOutcome rs).1 = true →
      ∀ r ∈ rs, r.settleTime ≤ (flushRoundOutcome rs).2.1) ∧
    ((flushRoundOutcome rs).1 = false → ∃ r ∈ rs, ¬ bulkRespOk r) ∧
    (flushRoundOutcome rs).2.2 = [] := by
  by_cases h : rs.all bulkRespOk
  · have hall : ∀ r ∈ rs, bulkRespOk r := fun r hr => by
      simpa using List.all_eq_true.mp h r hr
    have h1 : flushRoundOutcome rs = (true, (rs.map HttpResp.settleTime).foldl max 0, []) := by
      simp [flushRoundOutcome, h]
    rw [h1]
    refine ⟨iff_of_true rfl hall, ?_, by simp, rfl⟩
    intro _ r hr
    exact (le_foldl_max (rs.map HttpResp.settleTime) 0).2 r.settleTime
      (List.mem_map_of_mem HttpResp.settleTime hr)
  · have hnall : ¬ ∀ r ∈ rs, bulkRespOk r := fun hall =>
      h (List.all_eq_true.mpr fun x hx => by simpa using hall x hx)
    have hex : ∃ r ∈ rs, ¬ bulkRespOk r := by
      by_contra hc
      push_neg at hc
      exact hnall fun r hr => hc r hr
    have h1 : flushRoundOutcome rs
        = (false,
           (((rs.filter (fun r => ! bulkRespOk r)).map HttpResp.settleTime).min?).getD 0, []) := by
      simp [flushRoundOutcome, h]
    rw [h1]
    exact ⟨iff_of_false (by simp) hnall, by simp, fun _ => hex, rfl⟩

theorem autoFlush_of_ne_null (st : LoggerState) (h : st.autoFlushTID ≠ TIDVal.null) :
    autoFlush st = st := by
  simp [autoFlush, h]

theorem cleanUp_preserves_timers (st : LoggerState) (now : Nat) :
    ((cleanUpOldIndexBulks st now).1).autoFlushTID = st.autoFlushTID ∧
    ((cleanUpOldIndexBulks st now).1).intervalTimers = st.intervalTimers ∧
    ((cleanUpOldIndexBulks st now).1).nonEmptyBulks = st.nonEmptyBulks ∧
    ((cleanUpOldIndexBulks st now).1).indexSplitInterval = st.indexSplitInterval := by
  unfold cleanUpOldIndexBulks
  split <;> simp

theorem undigits_decDigits (n : Nat) : undigits (decDigits n) = n := by
  induction n using Nat.strong_induction_on with
  | _ n ih =>
    rw [decDigits]
    by_cases h : n < 10
    · simp [h, undigits]
    · have hlt : n / 10 < n := Nat.div_lt_self (by omega) (by omega)
      simp only [h, if_false, undigits, ih (n / 10) hlt]
      omega

theorem decDigits_injective : Function.Injective decDigits :=
  Function.LeftInverse.injective undigits_decDigits

theorem decDigits_lt_ten (n : Nat) : ∀ d ∈ decDigits n, d < 10 := by
  induction n using Nat.strong_induction_on with
  | _ n ih =>
    rw [decDigits]
    by_cases h : n < 10
    · simp [h]
    · have hlt : n / 10 < n := Nat.div_lt_self (by omega) (by omega)
      simp only [h, if_false, List.mem_cons]
      intro d hd
      rcases hd with hd | hd
      · omega
      · exact ih (n / 10) hlt d hd

theorem digitChar_injOn : ∀ d1 < 10, ∀ d2 < 10, digitChar d1 = digitChar d2 → d1 = d2 := by
  decide

theorem map_digitChar_inj {l1 l2 : List Nat} (h1 : ∀ d ∈ l1, d < 10) (h2 : ∀ d ∈ l2, d < 10)
    (heq : l1.map digitChar = l2.map digitChar) : l1 = l2 := by
  induction l1 generalizing l2 with
  | nil => cases l2 <;> simp_all
  | cons a t ihl =>
    cases l2 with
    | nil => simp_all
    | cons b t2 =>
      simp only [List.map_cons, List.cons.injEq] at heq
      have ha : a = b := digitChar_injOn a (h1 a (by simp)) b (h2 b (by simp)) heq.1
      have ht : t = t2 := ihl (fun d hd => h1 d (by simp [hd]))
        (fun d hd => h2 d (by simp [hd])) heq.2
      simp [ha, ht]

theorem natToDecString_injective : Function.Injective natToDecString := by
  intro m n h
  have hdata : (List.map digitChar (decDigits m)).reverse
      = (List.map digitChar (decDigits n)).reverse := by
    have h2 := congrArg String.data h
    simpa [natToDecString, List.asString] using h2
  have hmap := List.reverse_injective hdata
  have hdd := map_digitChar_inj (decDigits_lt_ten m) (decDigits_lt_ten n) hmap
  exact decDigits_injective hdd

theorem bucket_name_inj (base s1 s2 : String)
    (h : base ++ "-" ++ s1 = base ++ "-" ++ s2) : s1 = s2 := by
  have h2 := congrArg String.data h
  simp only [String.data_append] at h2
  exact String.ext (List.append_cancel_left h2)

theorem addToBulk_of_reg (st : LoggerState) (index msg type : String) (b0 : ESBulk)
    (hreg : aGet st.indexBulks index = some b0) :
    ∃ b2 : ESBulk, b2.bulkSize = b0.bulkSize + 1 ∧
      addToBulk st index msg type
        = { st with
            nonEmptyBulks := addElem st.nonEmptyBulks index,
            indexBulks := aSet st.indexBulks index b2 } := by
  unfold addToBulk
  rw [hreg]
  exact ⟨_, rfl, rfl⟩

theorem pendingInv_addToBulk (st : LoggerState) (index msg type : String) (b0 : ESBulk)
    (hinv : pendingInv st) (hreg : aGet st.indexBulks index = some b0) :
    pendingInv (addToBulk st index msg type) := by
  obtain ⟨b2, hsz, heq⟩ := addToBulk_of_reg st index msg type b0 hreg
  rw [heq]
  intro name
  by_cases hn : name = index
  · subst hn
    refine iff_of_true ((mem_addElem _ _ _).mpr (Or.inr rfl)) ⟨b2, ?_, by omega⟩
    exact aGet_aSet_self st.indexBulks name b2
  · have h1 : name ∈ addElem st.nonEmptyBulks index ↔ name ∈ st.nonEmptyBulks := by
      rw [mem_addElem]
      simp [hn]
    have h2 : aGet (aSet st.indexBulks index b2) name = aGet st.indexBulks name :=
      aGet_aSet_ne st.indexBulks index name b2 (fun heq2 => hn heq2.symm)
    show name ∈ addElem st.nonEmptyBulks index ↔ _
    rw [h1]
    simp only [h2]
    exact hinv name

theorem foldl_flushStep_clears (l : List String) (acc : LoggerState × List (String × String))
    (h : ∀ name b, aGet acc.1.indexBulks name = some b → 0 < b.bulkSize → name ∈ l) :
    ∀ name b, aGet ((l.foldl flushStep acc).1).indexBulks name = some b →
      0 < b.bulkSize → False := by
  induction l generalizing acc with
  | nil =>
    intro name b hget hpos
    exact absurd (h name b hget hpos) (List.not_mem_nil name)
  | cons i rest ih =>
    simp only [List.foldl_cons]
    apply ih
    intro name b hget hpos
    unfold flushStep at hget
    cases hb : aGet acc.1.indexBulks i with
    | none =>
      rw [hb] at hget
      by_cases hn : name = i
      · subst hn
        rw [hb] at hget
        cases hget
      · rcases List.mem_cons.mp (h name b hget hpos) with hmem | hmem
        · exact absurd hmem hn
        · exact hmem
    | some b0 =>
      rw [hb] at hget
      by_cases hsz : b0.bulkSize > 0
      · simp only [hsz, if_true] at hget
        by_cases hn : name = i
        · subst hn
          rw [aGet_aSet_self] at hget
          cases hget
          simp at hpos
        · rw [aGet_aSet_ne acc.1.indexBulks i name _ (fun heq => hn heq.symm)] at hget
          rcases List.mem_cons.mp (h name b hget hpos) with hmem | hmem
          · exact absurd hmem hn
          · exact hmem
      · simp only [hsz, if_false] at hget
        by_cases hn : name = i
        · subst hn
          rw [hb] at hget
          cases hget
          exact absurd hpos hsz
        · rcases List.mem_cons.mp (h name b hget hpos) with hmem | hmem
          · exact absurd hmem hn
          · exact hmem

theorem pendingInv_flushRun (st : LoggerState) (hinv : pendingInv st) :
    pendingInv (flushRun st).1 := by
  unfold flushRun
  by_cases hl : st.nonEmptyBulks.length = 0
  · simpa [hl] using hinv
  · simp only [hl, if_false]
    intro name
    refine iff_of_false (List.not_mem_nil name) ?_
    rintro ⟨b, hget, hpos⟩
    refine foldl_flushStep_clears st.nonEmptyBulks (st, []) ?_ name b hget hpos
    intro n b2 hg hp
    exact (hinv n).mpr ⟨b2, hg, hp⟩

theorem pendingInv_single (st : LoggerState) (name : String) (b : ESBulk)
    (h1 : st.nonEmptyBulks = [name]) (h2 : st.indexBulks = [(name, b)])
    (h3 : 0 < b.bulkSize) : pendingInv st := by
  intro n
  rw [h1, h2]
  by_cases hn : n = name
  · subst hn
    exact iff_of_true (List.mem_singleton.mpr rfl) ⟨b, by simp [aGet], h3⟩
  · refine iff_of_false (fun hm => hn (List.mem_singleton.mp hm)) ?_
    rintro ⟨b2, hget, _⟩
    simp only [aGet, if_neg (fun heq : name = n => hn heq.symm)] at hget
    exact Option.noConfusion hget

theorem flushRun_no_tx_of_none (st : LoggerState) (k : String)
    (h : aGet st.indexBulks k = none) :
    ∀ p ∈ (flushRun st).2, p.1 ≠ k := by
  unfold flushRun
  by_cases hl : st.nonEmptyBulks.length = 0
  · simp [hl]
  · simp only [hl, if_false]
    intro p hp hpk
    have hmem := (foldl_flushStep_none st.nonEmptyBulks (st, []) k h).2 p hp hpk
    simp at hmem

theorem aGet_aDel_self {β : Type} (m : List (String × β)) (k : String) :
    aGet (aDel m k) k = none := by
  refine aGet_filter_eq_none m k _ ?_
  intro v _
  simp

theorem provCall_of_present (ps : ProvState) (index : String) (p : Nat)
    (h : aGet ps.promises index = some p) : provCall ps index = (ps, p) := by
  unfold provCall
  rw [h]

theorem provCall_of_absent (ps : ProvState) (index : String)
    (h : aGet ps.promises index = none) :
    provCall ps index
      = ({ promises := aSet ps.promises index ps.nextId,
           nextId := ps.nextId + 1,
           started := ps.started ++ [(index, ps.nextId)] }, ps.nextId) := by
  unfold provCall
  rw [h]

theorem provCalls_spec (ps : ProvState) (index : String)
    (habs : aGet ps.promises index = none) :
    ∀ n, (provCalls ps index (n + 1)).started = ps.started ++ [(index, ps.nextId)] ∧
      aGet (provCalls ps index (n + 1)).promises index = some ps.nextId ∧
      (provCalls ps index (n + 1)).nextId = ps.nextId + 1 := by
  intro n
  induction n with
  | zero =>
    have h0 : provCalls ps index (0 + 1) = (provCall ps index).1 := rfl
    rw [h0, provCall_of_absent ps index habs]
    exact ⟨rfl, aGet_aSet_self ps.promises index ps.nextId, rfl⟩
  | succ n ih =>
    have h0 : provCalls ps index (n + 1 + 1)
        = (provCall (provCalls ps index (n + 1)) index).1 := rfl
    rw [h0, provCall_of_present (provCalls ps index (n + 1)) index ps.nextId ih.2.1]
    exact ih

theorem mem_keys_aSet {β : Type} (m : List (String × β)) (k : String) (v : β) (q : String × β)
    (hq : q ∈ aSet m k v) : q.1 ∈ m.map Prod.fst ∨ q.1 = k := by
  induction m with
  | nil =>
    simp only [aSet, List.mem_singleton] at hq
    simp [hq]
  | cons r rr ih =>
    by_cases hr : r.1 = k
    · simp only [aSet, hr, if_true] at hq
      rcases List.mem_cons.mp hq with hq | hq
      · right; rw [hq]
      · exact Or.inl (List.mem_map_of_mem Prod.fst (List.mem_cons_of_mem r hq))
    · simp only [aSet, hr, if_false] at hq
      rcases List.mem_cons.mp hq with hq | hq
      · exact Or.inl (hq ▸ List.mem_map_of_mem Prod.fst (List.mem_cons_self r rr))
      · rcases ih hq with hh | hh
        · rcases List.mem_map.mp hh with ⟨p2, hp2, he⟩
          exact Or.inl (he ▸ List.mem_map_of_mem Prod.fst (List.mem_cons_of_mem r hp2))
        · exact Or.inr hh

theorem keys_nodup_aSet {β : Type} (m : List (String × β)) (k : String) (v : β)
    (h : (m.map Prod.fst).Nodup) : ((aSet m k v).map Prod.fst).Nodup := by
  induction m with
  | nil => simp [aSet]
  | cons p rest ih =>
    by_cases hp : p.1 = k
    · simp only [aSet, hp, if_true, List.map_cons, List.nodup_cons] at h ⊢
      exact ⟨hp ▸ h.1, h.2⟩
    · simp only [aSet, hp, if_false, List.map_cons, List.nodup_cons] at h ⊢
      refine ⟨?_, ih h.2⟩
      intro hmem
      rcases List.mem_map.mp hmem with ⟨q, hq, hqk⟩
      rcases mem_keys_aSet rest k v q hq with hh | hh
      · exact h.1 (hqk ▸ hh)
      · exact hp (by rw [← hqk, hh])

theorem keys_nodup_aDel {β : Type} (m : List (String × β)) (k : String)
    (h : (m.map Prod.fst).Nodup) : ((aDel m k).map Prod.fst).Nodup :=
  List.Nodup.sublist (List.Sublist.map Prod.fst (List.filter_sublist m)) h

theorem provStep_keys_nodup (ps : ProvState) (e : ProvEv)
    (h : (ps.promises.map Prod.fst).Nodup) :
    (((provStep ps e).promises).map Prod.fst).Nodup := by
  cases e with
  | call i =>
    show (((provCall ps i).1.promises).map Prod.fst).Nodup
    cases hp : aGet ps.promises i with
    | some p => rw [provCall_of_present ps i p hp]; exact h
    | none => rw [provCall_of_absent ps i hp]; exact keys_nodup_aSet ps.promises i ps.nextId h
  | settle i =>
    exact keys_nodup_aDel ps.promises i h

theorem closeInv_init : closeInv closeInit := by
  refine ⟨rfl, List.nodup_nil, ?_, ?_, ?_, ?_⟩
  · intro id hid
    exact absurd hid (List.not_mem_nil id)
  · intro id hid
    exact absurd hid (Nat.not_lt_zero id)
  · intro hc
    exact absurd hc (by decide)
  · intro hc
    exact absurd hc (by decide)

theorem closeInv_step :
    ∀ (st : CloseState) (e : CloseEv), closeInv st → closeInv (closeStep st e) := by
  intro st e h
  obtain ⟨hp, hnd, hlt, hpart, hreq, hret⟩ := h
  cases e with
  | submit =>
    simp only [closeStep]
    by_cases hd : st.dying = true
    · rw [if_pos hd]
      exact ⟨hp, hnd, hlt, hpart, hreq, hret⟩
    · rw [if_neg hd]
      refine ⟨?_, ?_, ?_, ?_, ?_, ?_⟩ <;> dsimp only
      · simp [hp]
      · rw [List.nodup_append]
        refine ⟨hnd, List.nodup_singleton _, ?_⟩
        intro a ha hb
        rw [List.mem_singleton] at hb
        have := hlt a ha
        omega
      · intro id hid
        rcases List.mem_append.mp hid with hid | hid
        · exact Nat.lt_succ_of_lt (hlt id hid)
        · rw [List.mem_singleton] at hid
          omega
      · intro id hid
        by_cases hide : id = st.nextOp
        · exact Or.inl (List.mem_append_right _ (List.mem_singleton.mpr hide))
        · rcases hpart id (by omega) with hin | hq | he
          · exact Or.inl (List.mem_append_left _ hin)
          · exact Or.inr (Or.inl hq)
          · exact Or.inr (Or.inr he)
      · intro hcr
        exact absurd (hreq hcr).1 hd
      · intro hcret
        exact absurd (hreq (hret hcret).1).1 hd
  | settleOk id =>
    simp only [closeStep]
    by_cases hmem : id ∈ st.inflight
    · rw [if_pos hmem]
      refine ⟨?_, ?_, ?_, ?_, ?_, ?_⟩ <;> dsimp only
      · rw [List.length_erase_of_mem hmem, hp]
      · exact hnd.erase id
      · intro id2 h2
        exact hlt id2 (List.mem_of_mem_erase h2)
      · intro id2 hlt2
        rcases hpart id2 hlt2 with hin | hq | he
        · by_cases heq : id2 = id
          · exact Or.inr (Or.inl (List.mem_append_right _ (List.mem_singleton.mpr heq)))
          · exact Or.inl ((List.mem_erase_of_ne heq).mpr hin)
        · exact Or.inr (Or.inl (List.mem_append_left _ hq))
        · exact Or.inr (Or.inr he)
      · exact hreq
      · intro hcret
        obtain ⟨hrq, hinf, hff⟩ := hret hcret
        exact absurd (hinf ▸ hmem) (List.not_mem_nil id)
    · rw [if_neg hmem]
      exact ⟨hp, hnd, hlt, hpart, hreq, hret⟩
  | settleErr id =>
    simp only [closeStep]
    by_cases hmem : id ∈ st.inflight
    · rw [if_pos hmem]
      refine ⟨?_, ?_, ?_, ?_, ?_, ?_⟩ <;> dsimp only
      · rw [List.length_erase_of_mem hmem, hp]
      · exact hnd.erase id
      · intro id2 h2
        exact hlt id2 (List.mem_of_mem_erase h2)
      · intro id2 hlt2
        rcases hpart id2 hlt2 with hin | hq | he
        · by_cases heq : id2 = id
          · exact Or.inr (Or.inr (List.mem_append_right _ (List.mem_singleton.mpr heq)))
          · exact Or.inl ((List.mem_erase_of_ne heq).mpr hin)
        · exact Or.inr (Or.inl hq)
        · exact Or.inr (Or.inr (List.mem_append_left _ he))
      · exact hreq
      · intro hcret
        obtain ⟨hrq, hinf, hff⟩ := hret hcret
        exact absurd (hinf ▸ hmem) (List.not_mem_nil id)
    · rw [if_neg hmem]
      exact ⟨hp, hnd, hlt, hpart, hreq, hret⟩
  | closeStart =>
    simp only [closeStep]
    by_cases hcr : st.closeRequested = true
    · rw [if_pos hcr]
      exact ⟨hp, hnd, hlt, hpart, hreq, hret⟩
    · rw [if_neg hcr]
      refine ⟨hp, hnd, hlt, hpart, fun _ => ⟨rfl, rfl⟩, ?_⟩
      intro hcret
      exact absurd (hret hcret).1 hcr
  | closePoll =>
    simp only [closeStep]
    by_cases hg : st.closeRequested = true ∧ ¬ st.closeReturned = true ∧ st.pendingMessages = 0
    · rw [if_pos hg]
      refine ⟨?_, ?_, ?_, ?_, ?_, ?_⟩ <;> dsimp only
      · exact hp
      · exact hnd
      · exact hlt
      · exact hpart
      · exact hreq
      · intro _
        refine ⟨hg.1, ?_, rfl⟩
        exact List.eq_nil_of_length_eq_zero (by rw [← hp]; exact hg.2.2)
    · rw [if_neg hg]
      exact ⟨hp, hnd, hlt, hpart, hreq, hret⟩

/-!  ## Claim theorems  -/

/-- C8: for every submit call the effective destination name is the base name
unmodified when the configured bucket interval is zero, and the base name
suffixed with the decimal rendering of `floor(now / interval)` when the
interval is non-zero; hence two calls whose timestamps fall in the same
bucket interval yield the same effective name, and calls in adjacent
intervals yield different names. -/
theorem C8_bucketed_names (i t0 t1 t2 t3 : Nat) (base : String)
    (hi : i ≠ 0) (hsame : t1 / i = t2 / i) (hadj : t2 / i + 1 = t3 / i) :
    elasticIndexWithSufix 0 t0 base = base ∧
    elasticIndexWithSufix i t1 base = base ++ "-" ++ natToDecString (t1 / i) ∧
    elasticIndexWithSufix i t1 base = elasticIndexWithSufix i t2 base ∧
    elasticIndexWithSufix i t2 base ≠ elasticIndexWithSufix i t3 base := by
  refine ⟨by simp [elasticIndexWithSufix], by simp [elasticIndexWithSufix, hi], ?_, ?_⟩
  · simp [elasticIndexWithSufix, hi, hsame]
  · simp only [elasticIndexWithSufix, hi, if_false]
    intro hcontra
    have heq := natToDecString_injective (bucket_name_inj _ _ _ hcontra)
    omega

theorem C8_bucketed_names_witness :
    elasticIndexWithSufix 10 9 "status" ≠ elasticIndexWithSufix 10 12 "status" :=
  (C8_bucketed_names 10 0 5 9 12 "status" (by decide) (by decide) (by decide)).2.2.2

/-- C9: for every state, flushing and then immediately flushing again with no
intervening submit performs zero bulk transmissions on the second call — the
pending-set is empty after a drain. -/
theorem C9_flush_then_flush_empty (st : LoggerState) :
    (flushRun st).1.nonEmptyBulks = [] ∧
    flushRun (flushRun st).1 = ((flushRun st).1, []) := by
  have h := flushRun_fst_nonEmptyBulks st
  exact ⟨h, flushRun_of_empty _ h⟩

/-- C6 (counterexample): a submit call made while the instance is shutting
down (`dying`) is a SILENT no-op — nothing is reported through the error
channel — contradicting the claim that an error is reported through the
configured error channel for such calls. -/
theorem C6_dying_counterexample :
    c6DyingState.dying = true ∧
    logStep c6DyingState 0 "status" "m" "doc" = (c6DyingState, LogAction.droppedDying, []) :=
  ⟨rfl, rfl⟩

/-- C6 (amended): a submit call made while the instance is shutting down is a
silent no-op on the buffers and pending-set with NO error report; a submit
call made before initialization is a no-op on the buffers and pending-set
with one error (`Logger is not initialized`) reported through the error
channel; in both cases nothing escapes `submit`. -/
theorem C6_log_shutdown_uninit_noop (st : LoggerState) (now : Nat) (base msg type : String) :
    (st.dying = true → logStep st now base msg type = (st, LogAction.droppedDying, [])) ∧
    (st.dying = false → st.esVersion = none →
      logStep st now base msg type
        = (st, LogAction.droppedUninitialized, ["Logger is not initialized"])) := by
  constructor
  · intro h
    simp [logStep, h]
  · intro h hv
    simp [logStep, h, hv]

theorem C6_log_shutdown_uninit_noop_witness :
    logStep c6UninitState 0 "status" "m" "doc"
      = (c6UninitState, LogAction.droppedUninitialized, ["Logger is not initialized"]) :=
  (C6_log_shutdown_uninit_noop c6UninitState 0 "status" "m" "doc").2 rfl rfl

/-- C1 (counterexample): a flush round with two issued transmissions in which
the first rejects (status 500) at time 1 and the second fulfils at time 5:
the promise returned by `flush` REJECTS (the claim says an individual
transmission failure never causes it to reject), it settles at time 1, i.e.
before the second transmission has settled at time 5 (the claim says it
settles only after every transmission has settled), and nothing is reported
through the error channel (the claim says the failure is reported there). -/
theorem C1_flush_rejects_counterexample :
    (flushRound c1State c1Resps).2.1.length = 2 ∧
    (flushRound c1State c1Resps).2.2.1 = false ∧
    (flushRound c1State c1Resps).2.2.2.1 = 1 ∧
    (c1Resps.map HttpResp.settleTime).foldl max 0 = 5 ∧
    (flushRound c1State c1Resps).2.2.2.2 = [] := by
  decide

/-- C1 (amended): the promise returned by `flush` fulfils iff every bulk
transmission of the round fulfils, and in that case it settles only after
every transmission has settled (at the maximum settle time); when any
transmission fails (non-200 status or an `"errors":true` body) the promise
returned by `flush` rejects — possibly before the remaining transmissions
settle — and `flush` itself reports nothing through the error channel in
either case (it contains no rejection handler; the rejection surfaces to the
caller of `flush` instead). -/
theorem C1_flush_round_settlement (st : LoggerState) (rs : List HttpResp) :
    ((flushRound st rs).2.2.1 = true ↔ ∀ r ∈ rs, bulkRespOk r) ∧
    ((flushRound st rs).2.2.1 = true →
      ∀ r ∈ rs, r.settleTime ≤ (flushRound st rs).2.2.2.1) ∧
    ((flushRound st rs).2.2.1 = false → ∃ r ∈ rs, ¬ bulkRespOk r) ∧
    (flushRound st rs).2.2.2.2 = [] := by
  have hout : (flushRound st rs).2.2 = flushRoundOutcome rs := rfl
  rw [hout]
  exact flushRoundOutcome_spec rs

/-- C2 (code bug): after construction no recurring timer invokes `flush` at
all.  The constructor leaves `autoFlushTID` as `undefined`, while
`Logger.autoFlush` installs its `setInterval` timer only under the guard
`this.autoFlushTID === null`, which `undefined` fails; so the constructor's
`autoFlush()` call installs nothing, and any later `autoFlush()` call is
equally a no-op. -/
theorem C2_autoFlush_timer_never_installed (cfg : Config) (now : Nat) :
    (mkLogger cfg now).intervalTimers = [] ∧
    (mkLogger cfg now).autoFlushTID = TIDVal.undef ∧
    autoFlush (mkLogger cfg now) = mkLogger cfg now := by
  have hinit : (initLoggerFields cfg).autoFlushTID = TIDVal.undef := rfl
  have hinterval : (initLoggerFields cfg).intervalTimers = [] := rfl
  have haf : autoFlush (initLoggerFields cfg) = initLoggerFields cfg :=
    autoFlush_of_ne_null _ (by rw [hinit]; intro h; cases h)
  have hcu := cleanUp_preserves_timers (autoFlush (initLoggerFields cfg)) now
  have h1 : (mkLogger cfg now).intervalTimers = [] := by
    rw [mkLogger, hcu.2.1, haf, hinterval]
  have h2 : (mkLogger cfg now).autoFlushTID = TIDVal.undef := by
    rw [mkLogger, hcu.1, haf, hinit]
  exact ⟨h1, h2, autoFlush_of_ne_null _ (by rw [h2]; intro h; cases h)⟩

/-- C10: when the retention sweep deletes a destination entry whose buffer
still holds queued records, those records are silently discarded: the sweep
reports nothing through the error channel, the stale name remains in the
pending-set with no buffer registered under it any more, a subsequent flush
issues no transmission for that name (the missing-buffer guard skips it),
and the drain then drops the stale name from the pending-set. -/
theorem C10_sweep_discards_silently (st : LoggerState) (now : Nat) (name : String) (b : ESBulk)
    (hint : 0 < st.indexSplitInterval)
    (hreg : aGet st.indexBulks name = some b)
    (hqueued : 0 < b.bulkSize)
    (hpend : name ∈ st.nonEmptyBulks)
    (hold : ∀ p ∈ st.indexBulks, p.1 = name → p.2.obsolete < now - st.indexSplitInterval) :
    (cleanUpOldIndexBulks st now).2 = [] ∧
    aGet ((cleanUpOldIndexBulks st now).1).indexBulks name = none ∧
    name ∈ ((cleanUpOldIndexBulks st now).1).nonEmptyBulks ∧
    (∀ p ∈ (flushRun (cleanUpOldIndexBulks st now).1).2, p.1 ≠ name) ∧
    name ∉ ((flushRun (cleanUpOldIndexBulks st now).1).1).nonEmptyBulks := by
  have hbranch : (cleanUpOldIndexBulks st now).1
      = { st with
          cleanUpTID := TIDVal.timer 1,
          indexBulks :=
            st.indexBulks.filter (fun p => ¬ p.2.obsolete < now - st.indexSplitInterval) } := by
    unfold cleanUpOldIndexBulks
    simp [hint]
  have herr : (cleanUpOldIndexBulks st now).2 = [] := by
    unfold cleanUpOldIndexBulks
    split <;> simp
  have hnone : aGet ((cleanUpOldIndexBulks st now).1).indexBulks name = none := by
    rw [hbranch]
    refine aGet_filter_eq_none st.indexBulks name _ ?_
    intro v hv
    have hv2 := hold (name, v) hv rfl
    simp only [decide_eq_true_eq]
    exact not_not_intro hv2
  have hpend2 : name ∈ ((cleanUpOldIndexBulks st now).1).nonEmptyBulks := by
    rw [hbranch]
    exact hpend
  refine ⟨herr, hnone, hpend2, flushRun_no_tx_of_none _ name hnone, ?_⟩
  rw [flushRun_fst_nonEmptyBulks]
  simp

theorem C10_sweep_discards_silently_witness :
    aGet ((cleanUpOldIndexBulks c10State 5000).1).indexBulks "a-0" = none ∧
    "a-0" ∈ ((cleanUpOldIndexBulks c10State 5000).1).nonEmptyBulks :=
  ⟨(C10_sweep_discards_silently c10State 5000 "a-0" ⟨"x", 1, 100⟩ (by decide) (by decide)
      (by decide) (by decide) (by decide)).2.1,
   (C10_sweep_discards_silently c10State 5000 "a-0" ⟨"x", 1, 100⟩ (by decide) (by decide)
      (by decide) (by decide) (by decide)).2.2.1⟩

/-- C3 (counterexample): the pending-set equivalence is NOT preserved by the
retention sweep.  In a state satisfying the invariant — one destination,
pending, with one queued record and an expired obsolescence time — the sweep
deletes the registry entry but leaves the name in the pending-set, so after
the sweep the name is pending while no buffer exists for it. -/
theorem C3_sweep_breaks_pendingInv :
    pendingInv c3State ∧ ¬ pendingInv (cleanUpOldIndexBulks c3State 5000).1 := by
  constructor
  · exact pendingInv_single c3State "a-0" ⟨"x", 1, 100⟩ rfl rfl (by decide)
  · intro hinv
    obtain ⟨b, hget, _⟩ := (hinv "a-0").mp (by decide)
    have hreg : ((cleanUpOldIndexBulks c3State 5000).1).indexBulks = [] := by decide
    rw [hreg] at hget
    simp only [aGet] at hget
    exact Option.noConfusion hget

/-- C3 (amended): the pending-set equivalence (a name is pending iff a buffer
is registered under it with positive record count) is preserved by every
append whose destination buffer is registered and by every drain; the
retention sweep, however, does not remove swept names from the pending-set
and therefore can break the equivalence (see the counterexample), which the
next drain then silently repairs by skipping and dropping the stale name. -/
theorem C3_pendingInv_append_drain (st : LoggerState) (index msg type : String) (b0 : ESBulk)
    (hinv : pendingInv st) (hreg : aGet st.indexBulks index = some b0) :
    pendingInv (addToBulk st index msg type) ∧ pendingInv (flushRun st).1 :=
  ⟨pendingInv_addToBulk st index msg type b0 hinv hreg, pendingInv_flushRun st hinv⟩

theorem C3_pendingInv_append_drain_witness :
    pendingInv (addToBulk c3WState "w" "m" "doc") ∧ pendingInv (flushRun c3WState).1 :=
  C3_pendingInv_append_drain c3WState "w" "m" "doc" ⟨"p", 2, 0⟩
    (pendingInv_single c3WState "w" ⟨"p", 2, 0⟩ rfl rfl (by decide)) (by decide)

/-- C4: provisioning is deduplicated per destination name.  Starting from a
state with no operation in flight for `index`: a second racing call observes
the very same pending operation as the first (and the state is unchanged);
any burst of `n + 1` racing calls starts exactly one fresh provisioning
operation; on settlement (success or failure alike — the settlement
continuation runs under `.catch(() => Promise.resolve())`) the in-flight
entry is removed from the promise map; a later call then starts a fresh,
distinct provisioning attempt; and in every state reachable from a fresh
instance the promise map holds at most one in-flight operation per name
(its keys are pairwise distinct). -/
theorem C4_provisioning_dedup (ps : ProvState) (index : String) (es : List ProvEv)
    (habs : aGet ps.promises index = none) :
    (provCall (provCall ps index).1 index).2 = (provCall ps index).2 ∧
    (provCall (provCall ps index).1 index).1 = (provCall ps index).1 ∧
    (∀ n, (provCalls ps index (n + 1)).started = ps.started ++ [(index, ps.nextId)]) ∧
    aGet (provSettle (provCall ps index).1 index).promises index = none ∧
    (provCall (provSettle (provCall ps index).1 index) index).2 ≠ (provCall ps index).2 ∧
    ((provRun es).promises.map Prod.fst).Nodup := by
  have hfirst := provCall_of_absent ps index habs
  have hpres : aGet (provCall ps index).1.promises index = some ps.nextId := by
    rw [hfirst]
    exact aGet_aSet_self ps.promises index ps.nextId
  have hsecond := provCall_of_present (provCall ps index).1 index ps.nextId hpres
  have hdel : aGet (provSettle (provCall ps index).1 index).promises index = none :=
    aGet_aDel_self (provCall ps index).1.promises index
  have hretry := provCall_of_absent (provSettle (provCall ps index).1 index) index hdel
  refine ⟨?_, ?_, fun n => (provCalls_spec ps index habs n).1, hdel, ?_, ?_⟩
  · rw [hsecond, hfirst]
  · rw [hsecond]
  · have h1 : (provCall (provSettle (provCall ps index).1 index) index).2
        = (provSettle (provCall ps index).1 index).nextId := by rw [hretry]
    have h2 : (provSettle (provCall ps index).1 index).nextId = ps.nextId + 1 := by
      show (provCall ps index).1.nextId = ps.nextId + 1
      rw [hfirst]
    have h3 : (provCall ps index).2 = ps.nextId := by rw [hfirst]
    rw [h1, h2, h3]
    simp
  · refine foldl_preserves provStep (fun s => ((s.promises).map Prod.fst).Nodup)
      provStep_keys_nodup es provInit ?_
    simp [provInit]

theorem C4_provisioning_dedup_witness :
    (provCall (provCall provInit "a").1 "a").2 = (provCall provInit "a").2 ∧
    aGet (provSettle (provCall provInit "a").1 "a").promises "a" = none :=
  ⟨(C4_provisioning_dedup provInit "a" [] rfl).1,
   (C4_provisioning_dedup provInit "a" [] rfl).2.2.2.1⟩

/-- C5 (counterexample): an interleaving in which one submit starts
provisioning (operation 0), `close()` is invoked while operation 0 is still
in flight, operation 0 then settles by FAILURE (its record is reported to
the error channel and dropped, the counter is decremented), and the poll
observes a zero counter so `close()` performs the final flush and returns.
`close()` has returned although the submit call in flight at the moment of
its invocation was never durably queued into a buffer — refuting the claim
as stated. -/
theorem C5_close_unqueued_counterexample :
    0 ∈ (closeRun [CloseEv.submit]).inflight ∧
    (closeRun [CloseEv.submit, CloseEv.closeStart, CloseEv.settleErr 0,
      CloseEv.closePoll]).closeReturned = true ∧
    0 ∉ (closeRun [CloseEv.submit, CloseEv.closeStart, CloseEv.settleErr 0,
      CloseEv.closePoll]).queued ∧
    0 ∈ (closeRun [CloseEv.submit, CloseEv.closeStart, CloseEv.settleErr 0,
      CloseEv.closePoll]).errored := by
  decide

/-- C5 (amended): `close()` marks the instance as dying, cancels both timers,
polls until the pending-operation counter reaches zero and only then performs
the final flush and returns; consequently whenever close has returned, every
submit call whose provisioning was in flight at the moment `close()` was
invoked has SETTLED — durably queued into a buffer when its provisioning
succeeded, or reported to the error channel and dropped when it failed —
and nothing remains in flight. -/
theorem C5_close_waits_for_settlement (es : List CloseEv)
    (h : (closeRun es).closeReturned = true) :
    (closeRun es).dying = true ∧ (closeRun es).timersCleared = true ∧
    (closeRun es).finalFlushDone = true ∧ (closeRun es).inflight = [] ∧
    (∀ id, id < (closeRun es).nextOp →
      id ∈ (closeRun es).queued ∨ id ∈ (closeRun es).errored) := by
  have hinv : closeInv (closeRun es) :=
    foldl_preserves closeStep closeInv closeInv_step es closeInit closeInv_init
  obtain ⟨hp, hnd, hlt, hpart, hreq, hret⟩ := hinv
  obtain ⟨hreq2, hinf, hff⟩ := hret h
  obtain ⟨hdy, htc⟩ := hreq hreq2
  refine ⟨hdy, htc, hff, hinf, ?_⟩
  intro id hid
  rcases hpart id hid with hin | hq | he
  · rw [hinf] at hin
    exact absurd hin (List.not_mem_nil id)
  · exact Or.inl hq
  · exact Or.inr he

theorem C5_close_waits_for_settlement_witness :
    (closeRun [CloseEv.submit, CloseEv.closeStart, CloseEv.settleOk 0,
      CloseEv.closePoll]).dying = true ∧
    (closeRun [CloseEv.submit, CloseEv.closeStart, CloseEv.settleOk 0,
      CloseEv.closePoll]).timersCleared = true ∧
    (closeRun [CloseEv.submit, CloseEv.closeStart, CloseEv.settleOk 0,
      CloseEv.closePoll]).finalFlushDone = true ∧
    (closeRun [CloseEv.submit, CloseEv.closeStart, CloseEv.settleOk 0,
      CloseEv.closePoll]).inflight = [] ∧
    (∀ id, id < (closeRun [CloseEv.submit, CloseEv.closeStart, CloseEv.settleOk 0,
      CloseEv.closePoll]).nextOp →
      id ∈ (closeRun [CloseEv.submit, CloseEv.closeStart, CloseEv.settleOk 0,
        CloseEv.closePoll]).queued ∨
      id ∈ (closeRun [CloseEv.submit, CloseEv.closeStart, CloseEv.settleOk 0,
        CloseEv.closePoll]).errored) :=
  C5_close_waits_for_settlement
    [CloseEv.submit, CloseEv.closeStart, CloseEv.settleOk 0, CloseEv.closePoll] (by decide)

/-- C7: for a provisioning attempt with a supplied schema: an existence
check returning 200 settles as provisioned with no create call; 404 causes
exactly one create call (a `PUT` carrying the schema), which provisions iff
it returns 200 and otherwise fails with the provisioning error; any other
existence-check status fails with the provisioning error and no create call;
and once provisioning has settled successfully (registering the destination
buffer), a subsequent submit to the same destination appends directly and
starts no further provisioning.  (The hypothesis `hidx` states that either
bucketing is disabled or the destination name carries a numeric bucket
suffix, which is how `log` always reaches `createIndex`.) -/
theorem C7_provisioning_with_schema (esHost : String) (major interval now : Nat)
    (index type propsJson msg : String) (mresp cresp : HttpResp)
    (st : LoggerState) (v : ESVersion)
    (hidx : interval = 0 ∨ (trailingDigitsVal index).isSome = true) :
    (mresp.statusCode = 200 →
      (∃ ob, (createIndexNet esHost major interval now index type (some propsJson)
        mresp cresp).2 = Except.ok ob) ∧
      ∀ c ∈ (createIndexNet esHost major interval now index type (some propsJson)
        mresp cresp).1, c.method ≠ HttpMethod.put) ∧
    (mresp.statusCode = 404 →
      (createIndexNet esHost major interval now index type (some propsJson)
        mresp cresp).1.map HttpCall.method = [HttpMethod.get, HttpMethod.put] ∧
      (∀ c ∈ (createIndexNet esHost major interval now index type (some propsJson)
        mresp cresp).1, c.method = HttpMethod.put → propsJson.data <:+: c.payload.data) ∧
      ((∃ ob, (createIndexNet esHost major interval now index type (some propsJson)
        mresp cresp).2 = Except.ok ob) ↔ cresp.statusCode = 200)) ∧
    (mresp.statusCode ≠ 200 → mresp.statusCode ≠ 404 →
      (createIndexNet esHost major interval now index type (some propsJson)
        mresp cresp).2 = Except.error "Cant create indice" ∧
      (createIndexNet esHost major interval now index type (some propsJson)
        mresp cresp).1.map HttpCall.method = [HttpMethod.get]) ∧
    (∀ ob tnow, st.dying = false → st.esVersion = some v → st.indexSplitInterval = 0 →
      (logStep (resolveESBulkSt st index ob) tnow index msg type).2.1
        = LogAction.appended) := by
  refine ⟨?_, ?_, ?_, ?_⟩
  · intro h200
    unfold createIndexNet
    dsimp only
    rw [if_pos h200]
    rcases hidx with hz | hsome
    · rw [hz]
      simp only [gt_iff_lt, Nat.lt_irrefl, if_false]
      refine ⟨⟨now + 2 * 0, rfl⟩, ?_⟩
      intro c hc
      rw [List.mem_singleton] at hc
      rw [hc]
      intro hput
      cases hput
    · by_cases hi : interval > 0
      · rw [if_pos hi]
        obtain ⟨dv, hdv⟩ := Option.isSome_iff_exists.mp hsome
        rw [hdv]
        refine ⟨⟨dv * interval, rfl⟩, ?_⟩
        intro c hc
        rw [List.mem_singleton] at hc
        rw [hc]
        intro hput
        cases hput
      · rw [if_neg hi]
        refine ⟨⟨now + 2 * interval, rfl⟩, ?_⟩
        intro c hc
        rw [List.mem_singleton] at hc
        rw [hc]
        intro hput
        cases hput
  · intro h404
    unfold createIndexNet
    dsimp only
    rw [if_neg (by rw [h404]; decide), if_pos h404]
    by_cases hmaj : major ≥ 7
    · rw [if_pos hmaj, if_pos hmaj]
      by_cases hc200 : cresp.statusCode = 200
      · rw [if_pos hc200]
        refine ⟨rfl, ?_, iff_of_true ⟨now + 2 * interval, rfl⟩ hc200⟩
        intro c hc hput
        rcases List.mem_cons.mp hc with hc | hc
        · rw [hc] at hput
          cases hput
        · rw [List.mem_singleton] at hc
          rw [hc]
          exact ⟨("\x7b\"mappings\":\x7b\"properties\":" : String).data, ("\x7d\x7d" : String).data,
            by simp [String.data_append]⟩
      · rw [if_neg hc200]
        refine ⟨rfl, ?_, iff_of_false (by rintro ⟨ob, hob⟩; cases hob) hc200⟩
        intro c hc hput
        rcases List.mem_cons.mp hc with hc | hc
        · rw [hc] at hput
          cases hput
        · rw [List.mem_singleton] at hc
          rw [hc]
          exact ⟨("\x7b\"mappings\":\x7b\"properties\":" : String).data, ("\x7d\x7d" : String).data,
            by simp [String.data_append]⟩
    · rw [if_neg hmaj, if_neg hmaj]
      by_cases hc200 : cresp.statusCode = 200
      · rw [if_pos hc200]
        refine ⟨rfl, ?_, iff_of_true ⟨now + 2 * interval, rfl⟩ hc200⟩
        intro c hc hput
        rcases List.mem_cons.mp hc with hc | hc
        · rw [hc] at hput
          cases hput
        · rw [List.mem_singleton] at hc
          rw [hc]
          refine ⟨("\x7b\"mappings\":\x7b\"" ++ type ++ "\":\x7b\"properties\":" : String).data,
            ("\x7d\x7d\x7d" : String).data, ?_⟩
          simp [String.data_append]
      · rw [if_neg hc200]
        refine ⟨rfl, ?_, iff_of_false (by rintro ⟨ob, hob⟩; cases hob) hc200⟩
        intro c hc hput
        rcases List.mem_cons.mp hc with hc | hc
        · rw [hc] at hput
          cases hput
        · rw [List.mem_singleton] at hc
          rw [hc]
          refine ⟨("\x7b\"mappings\":\x7b\"" ++ type ++ "\":\x7b\"properties\":" : String).data,
            ("\x7d\x7d\x7d" : String).data, ?_⟩
          simp [String.data_append]
  · intro hn200 hn404
    unfold createIndexNet
    dsimp only
    rw [if_neg hn200, if_neg hn404]
    exact ⟨rfl, rfl⟩
  · intro ob tnow hdying hver hzero
    have hst : (resolveESBulkSt st index ob).dying = false := hdying
    have hv2 : (resolveESBulkSt st index ob).esVersion = some v := hver
    have hz2 : (resolveESBulkSt st index ob).indexSplitInterval = 0 := hzero
    unfold logStep
    rw [hst]
    simp only [Bool.false_eq_true, if_false, hv2]
    have hname : elasticIndexWithSufix (resolveESBulkSt st index ob).indexSplitInterval
        tnow index = index := by
      rw [hz2]
      simp [elasticIndexWithSufix]
    rw [hname]
    have hreg : aGet (resolveESBulkSt st index ob).indexBulks index = some ⟨"", 0, ob⟩ :=
      aGet_aSet_self st.indexBulks index ⟨"", 0, ob⟩
    rw [hreg]

theorem C7_provisioning_with_schema_witness :
    (createIndexNet "h" 7 0 0 "status" "doc" (some "x") ⟨404, "", 0⟩ ⟨200, "", 0⟩).1.map
      HttpCall.method = [HttpMethod.get, HttpMethod.put] ∧
    (logStep (resolveESBulkSt c7State "status" 0) 0 "status" "m" "doc").2.1
      = LogAction.appended :=
  ⟨((C7_provisioning_with_schema "h" 7 0 0 "status" "doc" "x" "m" ⟨404, "", 0⟩ ⟨200, "", 0⟩
      c7State ⟨7, 0, 0⟩ (Or.inl rfl)).2.1 rfl).1,
   (C7_provisioning_with_schema "h" 7 0 0 "status" "doc" "x" "m" ⟨404, "", 0⟩ ⟨200, "", 0⟩
      c7State ⟨7, 0, 0⟩ (Or.inl rfl)).2.2.2 0 0 rfl rfl rfl⟩

end ElasticLogging
